import Mathlib
set_option maxRecDepth 8192

/-!
Shallow embedding of the external-integration dispatcher of the SALESCRM
repository (`src/utils/integrationManager.ts`), together with theorems that
settle the specification's claims about it.

Conventions of the embedding:
* Timestamps are milliseconds since the epoch, modelled as `Int`
  (`Date.now()`, `new Date().toISOString()` and `new Date(s).getTime()` all
  reduce to this single notion of time; the calendar arithmetic of
  `setHours(h-1)` / `setDate(d-1)` / `setDate(d-7)` is the corresponding
  fixed millisecond offset).
* JavaScript `Map` objects are association lists with `setKey` / `getKey`.
* `async` functions that can `throw` return `Except String` results, the
  error being the thrown `Error`'s message; manager-state mutation persists
  across a throw, so stateful operations return `MState × Except String _`.
* The generated event id `event_${Date.now()}_${random}` is modelled as a
  fresh id drawn from a counter (`eventCounter`): the random suffix exists
  only to make ids unique, which the counter does deterministically.
* The network (`fetch`) and the provider-specific `pullData` / `pushData`
  steps are external collaborators, passed in as function parameters.
-/

/-! ## Definitions: the embedding of the data model and operations -/

/-- The `rateLimits` triple of `IntegrationConfig.settings`. -/
structure RateLimits where
  requestsPerSecond : Nat
  requestsPerHour : Nat
  requestsPerDay : Nat
deriving DecidableEq, Repr

/-- State of one `RateLimiter` instance: the retained request timestamps
(in insertion order) and the configured limits. -/
structure RateLimiter where
  requests : List Int
  limits : RateLimits
deriving DecidableEq, Repr

/-- `RateLimiter.canMakeRequest`, with the call's `Date.now()` made explicit.
Returns the boolean result together with the limiter state after the call
(the source mutates `this.requests` in place). -/
def canMakeRequest (rl : RateLimiter) (now : Int) : Bool × RateLimiter :=
  let secondAgo := now - 1000
  let hourAgo := now - 3600000
  let dayAgo := now - 86400000
  let pruned := rl.requests.filter (fun time => decide (dayAgo < time))
  let requestsLastSecond := (pruned.filter (fun time => decide (secondAgo < time))).length
  let requestsLastHour := (pruned.filter (fun time => decide (hourAgo < time))).length
  let requestsLastDay := pruned.length
  if rl.limits.requestsPerSecond ≤ requestsLastSecond
      ∨ rl.limits.requestsPerHour ≤ requestsLastHour
      ∨ rl.limits.requestsPerDay ≤ requestsLastDay then
    (false, { rl with requests := pruned })
  else
    (true, { rl with requests := pruned ++ [now] })

/-- The timestamps of the calls of a `canMakeRequest` call sequence that
returned `true` (i.e. the admitted requests), starting from limiter state
`rl`. -/
def admittedTimes (rl : RateLimiter) : List Int → List Int
  | [] => []
  | t :: ts =>
    let r := canMakeRequest rl t
    if r.1 then t :: admittedTimes r.2 ts else admittedTimes r.2 ts

/-- Number of timestamps of `l` lying in the trailing window of width `w`
ending at `t`, i.e. in the half-open interval `(t - w, t]` — the window
shape `time > now - w` used by `canMakeRequest`. -/
def countIn (l : List Int) (t w : Int) : Nat :=
  (l.filter (fun s => decide (t - w < s ∧ s ≤ t))).length

/-- `IntegrationConfig.category`. -/
inductive Category where
  | email | sms | calendar | storage | crm | payment | analytics | communication
deriving DecidableEq, Repr

/-- `IntegrationConfig.status`. -/
inductive Status where
  | active | inactive | error | pending
deriving DecidableEq, Repr

/-- `IntegrationEvent.type`. -/
inductive EventType where
  | sync | webhook | api_call | error | auth_refresh
deriving DecidableEq, Repr

/-- `IntegrationEvent.direction`. -/
inductive EDirection where
  | inbound | outbound
deriving DecidableEq, Repr

/-- `IntegrationEvent.status`. -/
inductive EStatus where
  | success | failed | pending
deriving DecidableEq, Repr

/-- `syncData`'s `direction` argument. -/
inductive SyncDirection where
  | pull | push | bidirectional
deriving DecidableEq, Repr

/-- The named credential fields consumed by the manager (`credentials` is an
open map in the source; only these keys are ever read). -/
structure Credentials where
  apiKey : Option String := none
  apiSecret : Option String := none
  accessToken : Option String := none
  refreshToken : Option String := none
  clientId : Option String := none
  clientSecret : Option String := none
  webhook : Option String := none
deriving DecidableEq, Repr

/-- `IntegrationConfig.settings`. -/
structure Settings where
  syncEnabled : Bool
  syncInterval : Int
  lastSync : Option Int := none
  webhookUrl : Option String := none
  rateLimits : Option RateLimits := none
deriving DecidableEq, Repr

/-- `IntegrationConfig.endpoints`: the required `base` URL plus the named
provider-specific sub-path entries. -/
structure Endpoints where
  base : String
  extra : List (String × String) := []
deriving DecidableEq, Repr

/-- `IntegrationConfig`. -/
structure IntegrationConfig where
  id : String
  name : String
  category : Category
  provider : String
  status : Status
  credentials : Credentials
  settings : Settings
  endpoints : Endpoints
  createdAt : Int
  updatedAt : Int
deriving DecidableEq, Repr

/-- `IntegrationEvent.metadata`. -/
structure EventMetadata where
  endpoint : Option String := none
  httpStatus : Option Nat := none
  responseTime : Option Int := none
deriving DecidableEq, Repr

/-- The shapes taken by `IntegrationEvent.data` at the source's `logEvent`
call sites: `null`, a raw webhook payload, `{ method, endpoint, data }`, or
`{ direction }`. The payload type `α` stands for the opaque `any` data. -/
inductive EventPayload (α : Type) where
  | null
  | webhookData (d : α)
  | apiCall (method endpoint : String) (d : Option α)
  | syncDir (direction : SyncDirection)
deriving DecidableEq, Repr

/-- `IntegrationEvent`. -/
structure IntegrationEvent (α : Type) where
  id : String
  integrationId : String
  type : EventType
  direction : EDirection
  status : EStatus
  data : EventPayload α
  error : Option String
  timestamp : Int
  retryCount : Nat
  metadata : Option EventMetadata
deriving DecidableEq, Repr

/-- `WebhookHandler`; the handler either succeeds or throws an error
message. -/
structure WebhookHandler (α : Type) where
  integrationId : String
  eventTypes : List String
  handler : α → Except String Unit

/-- `Map.set`: replace the binding of `k` if present, else append. -/
def setKey {β : Type} (l : List (String × β)) (k : String) (v : β) :
    List (String × β) :=
  match l with
  | [] => [(k, v)]
  | (k', v') :: rest => if k' = k then (k, v) :: rest else (k', v') :: setKey rest k v

/-- `Map.get`. -/
def getKey {β : Type} (l : List (String × β)) (k : String) : Option β :=
  match l with
  | [] => none
  | (k', v) :: rest => if k' = k then some v else getKey rest k

/-- The private state of the `IntegrationManager` class. `eventCounter`
supplies the fresh event ids (see the file header). -/
structure MState (α : Type) where
  integrations : List (String × IntegrationConfig)
  webhookHandlers : List (String × List (WebhookHandler α))
  events : List (IntegrationEvent α)
  rateLimiters : List (String × RateLimiter)
  eventCounter : Nat

/-- The outbound HTTP transport (`fetch`): given method, endpoint, body and
headers it either throws or yields a `Response`-like record. -/
structure Response where
  ok : Bool
  status : Nat
deriving DecidableEq, Repr

/-- Transport collaborator signature. -/
def Transport (α : Type) : Type :=
  String → String → Option α → List (String × String) → Except String Response

/-- The event record built by `logEvent` (id drawn from the counter `n`,
`timestamp` from the ambient clock, `retryCount` always 0). -/
def mkEvent {α : Type} (n : Nat) (integrationId : String) (type : EventType)
    (direction : EDirection) (status : EStatus) (data : EventPayload α)
    (error : Option String) (metadata : Option EventMetadata) (now : Int) :
    IntegrationEvent α :=
  { id := "event_" ++ toString n, integrationId := integrationId, type := type,
    direction := direction, status := status, data := data, error := error,
    timestamp := now, retryCount := 0, metadata := metadata }

/-- `IntegrationManager.logEvent`: append the event, then keep only the last
10000 entries. -/
def logEvent {α : Type} (st : MState α) (integrationId : String)
    (type : EventType) (direction : EDirection) (status : EStatus)
    (data : EventPayload α) (error : Option String)
    (metadata : Option EventMetadata) (now : Int) : MState α :=
  let event := mkEvent st.eventCounter integrationId type direction status data
    error metadata now
  let events := st.events ++ [event]
  let events := if 10000 < events.length then events.drop (events.length - 10000)
    else events
  { st with events := events, eventCounter := st.eventCounter + 1 }

/-- The last `n` entries of a list — the `events.slice(-10000)` retention
view (`drop (length - n)`). -/
def lastN {β : Type} (n : Nat) (l : List β) : List β :=
  l.drop (l.length - n)

/-- One `logEvent` invocation's arguments, used to describe arbitrary append
sequences. -/
structure LogCall (α : Type) where
  integrationId : String
  type : EventType
  direction : EDirection
  status : EStatus
  data : EventPayload α
  error : Option String := none
  metadata : Option EventMetadata := none
  now : Int

/-- Run one recorded `logEvent` call. -/
def applyLogCall {α : Type} (st : MState α) (c : LogCall α) : MState α :=
  logEvent st c.integrationId c.type c.direction c.status c.data c.error
    c.metadata c.now

/-- The events a sequence of `logEvent` calls builds, ids drawn from
successive counters starting at `n`. -/
def logCallEvents {α : Type} (n : Nat) : List (LogCall α) → List (IntegrationEvent α)
  | [] => []
  | c :: cs =>
    mkEvent n c.integrationId c.type c.direction c.status c.data c.error
      c.metadata c.now :: logCallEvents (n + 1) cs

/-- `getMetrics`'s `timeframe` argument. -/
inductive Timeframe where
  | hour | day | week
deriving DecidableEq, Repr

/-- The cutoff instant implied by a timeframe: `setHours(h-1)`,
`setDate(d-1)`, `setDate(d-7)` on "now". -/
def metricsCutoff (tf : Timeframe) (now : Int) : Int :=
  match tf with
  | .hour => now - 3600000
  | .day => now - 86400000
  | .week => now - 7 * 86400000

/-- The record returned by `getMetrics`. The two ratio fields are rational
views of the source's number arithmetic. -/
structure MetricsResult where
  totalRequests : Nat
  successfulRequests : Nat
  failedRequests : Nat
  averageResponseTime : ℚ
  errorRate : ℚ
deriving Repr

/-- `IntegrationManager.getMetrics`. -/
def getMetrics {α : Type} (st : MState α) (integrationId : String)
    (timeframe : Timeframe) (now : Int) : MetricsResult :=
  let cutoff := metricsCutoff timeframe now
  let events := st.events.filter (fun e =>
    e.integrationId == integrationId
      && decide (cutoff < e.timestamp)
      && e.type == EventType.api_call)
  let totalRequests := events.length
  let successfulRequests := (events.filter (fun e => e.status == EStatus.success)).length
  let failedRequests := totalRequests - successfulRequests
  let responseTimes := (events.filter (fun e =>
      decide ((e.metadata.bind (fun m => m.responseTime)).getD 0 ≠ 0))).map
    (fun e => (e.metadata.bind (fun m => m.responseTime)).getD 0)
  let averageResponseTime : ℚ :=
    if 0 < responseTimes.length then
      (responseTimes.map (fun time => (time : ℚ))).sum / (responseTimes.length : ℚ)
    else 0
  let errorRate : ℚ :=
    if 0 < totalRequests then ((failedRequests : ℚ) / (totalRequests : ℚ)) * 100
    else 0
  ⟨totalRequests, successfulRequests, failedRequests, averageResponseTime, errorRate⟩

/-- A `Partial<IntegrationConfig>` argument of `updateIntegration`: absent
fields keep the stored value under the object spread. -/
structure ConfigUpdate where
  id : Option String := none
  name : Option String := none
  category : Option Category := none
  provider : Option String := none
  status : Option Status := none
  credentials : Option Credentials := none
  settings : Option Settings := none
  endpoints : Option Endpoints := none
  createdAt : Option Int := none
deriving Repr

/-- `{ ...integration, ...updates, updatedAt: now }`. -/
def applyUpdate (c : IntegrationConfig) (u : ConfigUpdate) (now : Int) :
    IntegrationConfig :=
  { id := u.id.getD c.id
    name := u.name.getD c.name
    category := u.category.getD c.category
    provider := u.provider.getD c.provider
    status := u.status.getD c.status
    credentials := u.credentials.getD c.credentials
    settings := u.settings.getD c.settings
    endpoints := u.endpoints.getD c.endpoints
    createdAt := u.createdAt.getD c.createdAt
    updatedAt := now }

/-- `IntegrationManager.updateIntegration`: merge the partial fields into the
stored config (throws for an unknown id). -/
def updateIntegration {α : Type} (st : MState α) (id : String) (u : ConfigUpdate)
    (now : Int) : Except String (MState α) :=
  match getKey st.integrations id with
  | none => .error ("Integration " ++ id ++ " not found")
  | some integration =>
    .ok { st with integrations := setKey st.integrations id (applyUpdate integration u now) }

/-- `getAuthHeaders`: `apiKey` writes the bearer header first and
`accessToken` overwrites it, so `accessToken` wins when both are present. -/
def getAuthHeaders (integration : IntegrationConfig) : List (String × String) :=
  match integration.credentials.accessToken, integration.credentials.apiKey with
  | some token, _ => [("Authorization", "Bearer " ++ token)]
  | none, some key => [("Authorization", "Bearer " ++ key)]
  | none, none => []

/-- The `requestHeaders` object spread of `makeApiCall`: later entries
overwrite earlier ones key by key. -/
def buildRequestHeaders (integration : IntegrationConfig)
    (headers : List (String × String)) : List (String × String) :=
  (getAuthHeaders integration ++ headers).foldl
    (fun acc kv => setKey acc kv.1 kv.2) [("Content-Type", "application/json")]

/-- `IntegrationManager.makeApiCall`. State mutations made before a throw
persist, so the state is returned alongside the `Except` outcome. The
wall-clock duration measured around the transport call is the
`responseTime` parameter. -/
def makeApiCall {α : Type} (fetchFn : Transport α) (st : MState α)
    (integrationId method endpoint : String) (data : Option α)
    (headers : List (String × String)) (now responseTime : Int) :
    MState α × Except String Response :=
  match getKey st.integrations integrationId with
  | none => (st, .error ("Integration " ++ integrationId ++ " not found"))
  | some integration =>
    let checked :=
      match getKey st.rateLimiters integrationId with
      | none => (true, st)
      | some rateLimiter =>
        let r := canMakeRequest rateLimiter now
        (r.1, { st with rateLimiters := setKey st.rateLimiters integrationId r.2 })
    let st1 := checked.2
    if checked.1 = false then (st1, .error "Rate limit exceeded")
    else
      let requestHeaders := buildRequestHeaders integration headers
      match fetchFn method endpoint data requestHeaders with
      | .ok response =>
        (logEvent st1 integrationId .api_call .outbound
          (if response.ok then .success else .failed)
          (.apiCall method endpoint data)
          (if response.ok then none else some ("HTTP " ++ toString response.status))
          (some { endpoint := some endpoint, httpStatus := some response.status,
                  responseTime := some responseTime }) now,
         .ok response)
      | .error e =>
        (logEvent st1 integrationId .api_call .outbound .failed
          (.apiCall method endpoint data) (some e)
          (some { endpoint := some endpoint, responseTime := some responseTime }) now,
         .error e)

/-- A status-only partial update. -/
def statusUpdate (s : Status) : ConfigUpdate := { status := some s }

/-- The `catch` block of `testIntegration`: set the status to `error`, log
an `error`-type event with the thrown message, return `false`. -/
def testCatch {α : Type} (st : MState α) (id : String) (e : String) (now : Int) :
    MState α × Except String Bool :=
  match updateIntegration st id (statusUpdate .error) now with
  | .ok st2 => (logEvent st2 id .error .outbound .failed .null (some e) none now, .ok false)
  | .error e2 => (st, .error e2)

/-- `IntegrationManager.testIntegration` (`testConnection`): health-check
`GET endpoints.base + "/health"` through `makeApiCall`, then set the status
from the outcome. -/
def testIntegration {α : Type} (fetchFn : Transport α) (st : MState α)
    (id : String) (now responseTime : Int) : MState α × Except String Bool :=
  match getKey st.integrations id with
  | none => (st, .error ("Integration " ++ id ++ " not found"))
  | some integration =>
    let r := makeApiCall fetchFn st id "GET" (integration.endpoints.base ++ "/health")
      none [] now responseTime
    let st1 := r.1
    match r.2 with
    | .ok response =>
      if response.ok then
        match updateIntegration st1 id (statusUpdate .active) now with
        | .ok st2 => (st2, .ok true)
        | .error e => testCatch st1 id e now
      else
        match updateIntegration st1 id (statusUpdate .error) now with
        | .ok st2 => (st2, .ok false)
        | .error e => testCatch st1 id e now
    | .error e => testCatch st1 id e now

/-- The stored form of a newly registered config: `createdAt` and
`updatedAt` stamped to now. -/
def freshConfig (config : IntegrationConfig) (now : Int) : IntegrationConfig :=
  { config with createdAt := now, updatedAt := now }

/-- `IntegrationManager.registerIntegration`: store the config with fresh
timestamps, bind a fresh rate limiter when `rateLimits` is declared (and
leave any previously bound limiter in place when it is not), then test the
connection. -/
def registerIntegration {α : Type} (fetchFn : Transport α) (st : MState α)
    (config : IntegrationConfig) (now responseTime : Int) :
    MState α × Except String String :=
  let integration := freshConfig config now
  let st1 := { st with integrations := setKey st.integrations integration.id integration }
  let st2 :=
    match integration.settings.rateLimits with
    | some limits =>
      { st1 with rateLimiters := setKey st1.rateLimiters integration.id ⟨[], limits⟩ }
    | none => st1
  let r := testIntegration fetchFn st2 integration.id now responseTime
  match r.2 with
  | .ok _ => (r.1, .ok integration.id)
  | .error e => (r.1, .error e)

/-- `IntegrationManager.handleWebhook`: run every matching handler, logging
each handler's own outcome; a throwing handler is caught and logged as
`failed` with its message. -/
def handleWebhook {α : Type} (st : MState α) (integrationId eventType : String)
    (data : α) (now : Int) : MState α :=
  let handlers := (getKey st.webhookHandlers integrationId).getD []
  let matchingHandlers := handlers.filter (fun h => h.eventTypes.contains eventType)
  matchingHandlers.foldl
    (fun s h =>
      match h.handler data with
      | .ok _ => logEvent s integrationId .webhook .inbound .success
          (.webhookData data) none none now
      | .error e => logEvent s integrationId .webhook .inbound .failed
          (.webhookData data) (some e) none now)
    st

/-- The pull and/or push steps selected by `syncData`'s direction, run in
source order with fail-fast `await` semantics. -/
def runSyncSteps (pullData pushData : String → Except String Unit)
    (integrationId : String) (direction : SyncDirection) : Except String Unit :=
  match (if direction = .pull ∨ direction = .bidirectional
      then pullData integrationId else .ok ()) with
  | .error e => .error e
  | .ok _ =>
    if direction = .push ∨ direction = .bidirectional
      then pushData integrationId else .ok ()

/-- The partial update `{ settings: { ...integration.settings, lastSync: now } }`
written by a successful sync. -/
def lastSyncUpdate (s : Settings) (now : Int) : ConfigUpdate :=
  { settings := some { s with lastSync := some now } }

/-- Replace the integrations map of a manager state (a view helper for
stating post-states). -/
def setIntegrations {α : Type} (st : MState α)
    (l : List (String × IntegrationConfig)) : MState α :=
  { st with integrations := l }

/-- `IntegrationManager.syncData`: silently returns for an unknown id or a
sync-disabled integration; otherwise runs the selected steps, and on success
stamps `settings.lastSync` and logs a success event, while any thrown error
is absorbed into a single `sync`/`outbound`/`failed` event. -/
def syncData {α : Type} (pullData pushData : String → Except String Unit)
    (st : MState α) (integrationId : String) (direction : SyncDirection)
    (now : Int) : MState α × Except String Unit :=
  match getKey st.integrations integrationId with
  | none => (st, .ok ())
  | some integration =>
    if integration.settings.syncEnabled = false then (st, .ok ())
    else
      let tried : Except String (MState α) :=
        match runSyncSteps pullData pushData integrationId direction with
        | .error e => .error e
        | .ok _ =>
          match updateIntegration st integrationId
              (lastSyncUpdate integration.settings now) now with
          | .error e => .error e
          | .ok st1 =>
            .ok (logEvent st1 integrationId .sync .outbound .success
              (.syncDir direction) none none now)
      match tried with
      | .ok st' => (st', .ok ())
      | .error e =>
        (logEvent st integrationId .sync .outbound .failed (.syncDir direction)
          (some e) none now, .ok ())

/-- A minimal concrete configuration, used by the concrete instantiations. -/
def cfgX : IntegrationConfig :=
  { id := "x", name := "X", category := .crm, provider := "P", status := .pending,
    credentials := {}, settings := { syncEnabled := false, syncInterval := 60 },
    endpoints := { base := "B" }, createdAt := 0, updatedAt := 0 }

/-- A concrete manager state: integration "x" registered with an exhausted
(zero-limit) rate limiter bound. -/
def limitedStateX : MState Nat :=
  ⟨[("x", cfgX)], [], [], [("x", ⟨[], ⟨0, 0, 0⟩⟩)], 0⟩

/-- A concrete manager state: integration "x" registered, no rate limiter. -/
def registryStateX : MState Nat :=
  ⟨[("x", cfgX)], [], [], [], 0⟩

/-- A transport that always answers HTTP 500 (a non-2xx response, not a
thrown error). -/
def fetch500 : Transport Nat := fun _ _ _ _ => .ok ⟨false, 500⟩

/-- The event each matching handler's own outcome produces, ids drawn from
successive counters starting at `n`. -/
def webhookOutcomeEvents {α : Type} (n : Nat) (integrationId : String) (data : α)
    (now : Int) : List (WebhookHandler α) → List (IntegrationEvent α)
  | [] => []
  | h :: hs =>
    (match h.handler data with
     | .ok _ => mkEvent n integrationId .webhook .inbound .success
        (.webhookData data) none none now
     | .error e => mkEvent n integrationId .webhook .inbound .failed
        (.webhookData data) (some e) none now)
      :: webhookOutcomeEvents (n + 1) integrationId data now hs

/-- A handler for `("z", ["invoice.paid"])` that throws. -/
def handlerFail : WebhookHandler Nat := ⟨"z", ["invoice.paid"], fun _ => .error "boom"⟩

/-- A handler for `("z", ["invoice.paid"])` that succeeds. -/
def handlerOk : WebhookHandler Nat := ⟨"z", ["invoice.paid"], fun _ => .ok ()⟩

/-- A concrete manager state with both handlers registered for "z". -/
def webhookStateZ : MState Nat := ⟨[], [("z", [handlerFail, handlerOk])], [], [], 0⟩

/-- A registered, sync-enabled integration "w". -/
def cfgW : IntegrationConfig :=
  { id := "w", name := "W", category := .calendar, provider := "P", status := .active,
    credentials := {}, settings := { syncEnabled := true, syncInterval := 15 },
    endpoints := { base := "B" }, createdAt := 0, updatedAt := 0 }

/-- A concrete manager state with "w" registered. -/
def syncStateW : MState Nat := ⟨[("w", cfgW)], [], [], [], 0⟩

/-- Replace the rate limiter map of a manager state (a view helper for
stating post-states). -/
def setLimiters {α : Type} (st : MState α) (l : List (String × RateLimiter)) :
    MState α :=
  { st with rateLimiters := l }

/-- Metadata of the sample event below. -/
def sampleMeta : EventMetadata :=
  { endpoint := some "u", httpStatus := some 500, responseTime := some 3 }

/-- A concrete manager state holding one failed `api_call` event for "x". -/
def metricsStateX : MState Nat :=
  ⟨[("x", cfgX)], [],
    [mkEvent 0 "x" .api_call .outbound .failed (.apiCall "GET" "u" none)
      (some "HTTP 500") (some sampleMeta) 5],
    [], 1⟩

/-- A concrete manager state: integration "x" registered with a generous
(all-admitting at the witness inputs) rate limiter bound. -/
def limitedOkStateX : MState Nat :=
  ⟨[("x", cfgX)], [], [], [("x", ⟨[], ⟨10, 100, 1000⟩⟩)], 0⟩

/-! ## Theorems -/

section RateLimiterLemmas

/-- Filtering by a weaker predicate retains at least as many elements. -/
theorem length_filter_mono (l : List Int) (p q : Int → Bool)
    (h : ∀ a ∈ l, p a = true → q a = true) :
    (l.filter p).length ≤ (l.filter q).length := by
  induction l with
  | nil => simp
  | cons a l ih =>
    have ih' := ih (fun b hb => h b (List.mem_cons_of_mem _ hb))
    by_cases hp : p a = true
    · have hq := h a (List.mem_cons_self _ _) hp
      simp [List.filter_cons, hp, hq]
      omega
    · simp only [List.filter_cons, Bool.not_eq_true] at hp ⊢
      rw [hp]
      by_cases hq : q a = true
      · simp [hq]; omega
      · simp only [Bool.not_eq_true] at hq
        rw [hq]
        exact ih'

/-- Pruning at a horizon `c` with `c ≤ t - w` does not change a trailing
window count. -/
theorem countIn_filter_of_le (l : List Int) (c t w : Int) (h : c ≤ t - w) :
    countIn (l.filter (fun s => decide (c < s))) t w = countIn l t w := by
  unfold countIn
  rw [List.filter_filter]
  congr 1
  apply List.filter_congr
  intro a _
  by_cases ha : t - w < a ∧ a ≤ t
  · have hc : c < a := lt_of_le_of_lt h ha.1
    simp [ha, hc]
  · simp [ha]

/-- Composing prune filters keeps only the later (larger) horizon. -/
theorem filter_gt_filter_gt (l : List Int) (c d : Int) (h : c ≤ d) :
    (l.filter (fun s => decide (c < s))).filter (fun s => decide (d < s))
      = l.filter (fun s => decide (d < s)) := by
  rw [List.filter_filter]
  apply List.filter_congr
  intro a _
  by_cases hd : d < a
  · have hc : c < a := lt_of_le_of_lt h hd
    simp [hd, hc]
  · simp [hd]

/-- One admitted timestamp added at the top of the history keeps every
trailing window of width `w` within its budget `L`, provided the admission
check saw fewer than `L` in-window timestamps. -/
theorem countIn_append_le (H : List Int) (now t w : Int) (L : Nat)
    (hcheck : (H.filter (fun s => decide (now - w < s))).length < L)
    (hprev : countIn H t w ≤ L) :
    countIn (H ++ [now]) t w ≤ L := by
  unfold countIn at *
  rw [List.filter_append]
  by_cases hmem : t - w < now ∧ now ≤ t
  · have hsingle : List.filter (fun s => decide (t - w < s ∧ s ≤ t)) [now] = [now] := by
      simp [hmem]
    rw [hsingle, List.length_append]
    have hsub : (H.filter (fun s => decide (t - w < s ∧ s ≤ t))).length
        ≤ (H.filter (fun s => decide (now - w < s))).length := by
      apply length_filter_mono
      intro a ha hp
      simp only [decide_eq_true_eq] at hp ⊢
      have h1 : t - w < a := hp.1
      have h2 : now ≤ t := hmem.2
      omega
    simp only [List.length_cons, List.length_nil]
    omega
  · have hsingle : List.filter (fun s => decide (t - w < s ∧ s ≤ t)) [now] = [] := by
      simp [hmem]
    rw [hsingle, List.length_append]
    simpa using hprev

/-- Evaluation of `canMakeRequest` when some window is at or over its limit. -/
theorem canMakeRequest_of_reject (rl : RateLimiter) (now : Int)
    (h : rl.limits.requestsPerSecond ≤
          ((rl.requests.filter (fun time => decide (now - 86400000 < time))).filter
            (fun time => decide (now - 1000 < time))).length
        ∨ rl.limits.requestsPerHour ≤
          ((rl.requests.filter (fun time => decide (now - 86400000 < time))).filter
            (fun time => decide (now - 3600000 < time))).length
        ∨ rl.limits.requestsPerDay ≤
          (rl.requests.filter (fun time => decide (now - 86400000 < time))).length) :
    canMakeRequest rl now
      = (false, { rl with
          requests := rl.requests.filter (fun time => decide (now - 86400000 < time)) }) := by
  simp only [canMakeRequest]
  rw [if_pos h]

/-- Evaluation of `canMakeRequest` when every window is strictly under its
limit. -/
theorem canMakeRequest_of_allow (rl : RateLimiter) (now : Int)
    (h : ¬ (rl.limits.requestsPerSecond ≤
          ((rl.requests.filter (fun time => decide (now - 86400000 < time))).filter
            (fun time => decide (now - 1000 < time))).length
        ∨ rl.limits.requestsPerHour ≤
          ((rl.requests.filter (fun time => decide (now - 86400000 < time))).filter
            (fun time => decide (now - 3600000 < time))).length
        ∨ rl.limits.requestsPerDay ≤
          (rl.requests.filter (fun time => decide (now - 86400000 < time))).length)) :
    canMakeRequest rl now
      = (true, { rl with
          requests :=
            rl.requests.filter (fun time => decide (now - 86400000 < time)) ++ [now] }) := by
  simp only [canMakeRequest]
  rw [if_neg h]

/-- Core soundness induction for the rate limiter: starting from a retained
log that is exactly the day-pruned view of an admitted history `H` whose
elements are all `≤ b`, and with every trailing window of `H` within budget,
every trailing window of `H` extended by the future admissions stays within
budget. -/
theorem admittedTimes_bound_aux (lims : RateLimits) (ts : List Int) :
    ∀ (H : List Int) (b : Int),
    List.Chain (· ≤ ·) b ts →
    (∀ s ∈ H, s ≤ b) →
    (∀ t, countIn H t 1000 ≤ lims.requestsPerSecond) →
    (∀ t, countIn H t 3600000 ≤ lims.requestsPerHour) →
    (∀ t, countIn H t 86400000 ≤ lims.requestsPerDay) →
    ∀ t,
      countIn (H ++ admittedTimes ⟨H.filter (fun s => decide (b - 86400000 < s)), lims⟩ ts) t 1000
          ≤ lims.requestsPerSecond ∧
      countIn (H ++ admittedTimes ⟨H.filter (fun s => decide (b - 86400000 < s)), lims⟩ ts) t 3600000
          ≤ lims.requestsPerHour ∧
      countIn (H ++ admittedTimes ⟨H.filter (fun s => decide (b - 86400000 < s)), lims⟩ ts) t 86400000
          ≤ lims.requestsPerDay := by
  induction ts with
  | nil =>
    intro H b _ _ hsec hhour hday t
    simp only [admittedTimes, List.append_nil]
    exact ⟨hsec t, hhour t, hday t⟩
  | cons now rest ih =>
    intro H b hchain hHb hsec hhour hday t
    obtain ⟨hbn, hchain'⟩ := List.chain_cons.mp hchain
    have hprune : (H.filter (fun s => decide (b - 86400000 < s))).filter
        (fun s => decide (now - 86400000 < s))
        = H.filter (fun s => decide (now - 86400000 < s)) :=
      filter_gt_filter_gt H _ _ (by omega)
    by_cases hcond :
        lims.requestsPerSecond ≤
          ((H.filter (fun s => decide (now - 86400000 < s))).filter
            (fun s => decide (now - 1000 < s))).length
        ∨ lims.requestsPerHour ≤
          ((H.filter (fun s => decide (now - 86400000 < s))).filter
            (fun s => decide (now - 3600000 < s))).length
        ∨ lims.requestsPerDay ≤ (H.filter (fun s => decide (now - 86400000 < s))).length
    · -- the request at `now` is rejected: history unchanged, log pruned to `now`
      have hcmr := canMakeRequest_of_reject
        ⟨H.filter (fun s => decide (b - 86400000 < s)), lims⟩ now (by rw [hprune]; exact hcond)
      have hstep : admittedTimes ⟨H.filter (fun s => decide (b - 86400000 < s)), lims⟩ (now :: rest)
          = admittedTimes ⟨H.filter (fun s => decide (now - 86400000 < s)), lims⟩ rest := by
        simp [admittedTimes, hcmr, hprune]
      rw [hstep]
      exact ih H now hchain' (fun s hs => le_trans (hHb s hs) hbn) hsec hhour hday t
    · -- the request at `now` is admitted
      have hcmr := canMakeRequest_of_allow
        ⟨H.filter (fun s => decide (b - 86400000 < s)), lims⟩ now (by rw [hprune]; exact hcond)
      push_neg at hcond
      obtain ⟨hc1, hc2, hc3⟩ := hcond
      rw [filter_gt_filter_gt H _ _ (by omega : now - 86400000 ≤ now - 1000)] at hc1
      rw [filter_gt_filter_gt H _ _ (by omega : now - 86400000 ≤ now - 3600000)] at hc2
      have hstep : admittedTimes ⟨H.filter (fun s => decide (b - 86400000 < s)), lims⟩ (now :: rest)
          = now :: admittedTimes
              ⟨H.filter (fun s => decide (now - 86400000 < s)) ++ [now], lims⟩ rest := by
        simp [admittedTimes, hcmr, hprune]
      rw [hstep]
      have hnewreq : H.filter (fun s => decide (now - 86400000 < s)) ++ [now]
          = (H ++ [now]).filter (fun s => decide (now - 86400000 < s)) := by
        rw [List.filter_append]
        simp
      have hHb' : ∀ s ∈ H ++ [now], s ≤ now := by
        intro s hs
        rcases List.mem_append.mp hs with hs | hs
        · exact le_trans (hHb s hs) hbn
        · simp only [List.mem_singleton] at hs
          omega
      have hc3' : (H.filter (fun s => decide (now - 86400000 < s))).length
          < lims.requestsPerDay := hc3
      have hsec' : ∀ u, countIn (H ++ [now]) u 1000 ≤ lims.requestsPerSecond := fun u =>
        countIn_append_le H now u 1000 _ hc1 (hsec u)
      have hhour' : ∀ u, countIn (H ++ [now]) u 3600000 ≤ lims.requestsPerHour := fun u =>
        countIn_append_le H now u 3600000 _ hc2 (hhour u)
      have hday' : ∀ u, countIn (H ++ [now]) u 86400000 ≤ lims.requestsPerDay := fun u =>
        countIn_append_le H now u 86400000 _ hc3' (hday u)
      have := ih (H ++ [now]) now hchain' hHb' hsec' hhour' hday' t
      rw [hnewreq]
      simpa [List.append_assoc] using this

end RateLimiterLemmas

/-- C1: for every limiter configured with limits and every sequence of
`canMakeRequest` calls at nondecreasing timestamps, the number of admitted
calls whose timestamps lie within any trailing 1-second / 1-hour / 24-hour
window never exceeds the corresponding limit; moreover a call that admits
records its timestamp in the same atomic step (the post-state log is the
pruned log with `now` appended). -/
theorem rateLimiter_soundness (lims : RateLimits) (ts : List Int)
    (hts : ts.Chain' (· ≤ ·)) (t : Int) :
    countIn (admittedTimes ⟨[], lims⟩ ts) t 1000 ≤ lims.requestsPerSecond ∧
    countIn (admittedTimes ⟨[], lims⟩ ts) t 3600000 ≤ lims.requestsPerHour ∧
    countIn (admittedTimes ⟨[], lims⟩ ts) t 86400000 ≤ lims.requestsPerDay ∧
    ∀ (rl : RateLimiter) (now : Int), (canMakeRequest rl now).1 = true →
      (canMakeRequest rl now).2.requests
        = rl.requests.filter (fun time => decide (now - 86400000 < time)) ++ [now] := by
  have hatomic : ∀ (rl : RateLimiter) (now : Int), (canMakeRequest rl now).1 = true →
      (canMakeRequest rl now).2.requests
        = rl.requests.filter (fun time => decide (now - 86400000 < time)) ++ [now] := by
    intro rl now h
    by_cases hcond : rl.limits.requestsPerSecond ≤
          ((rl.requests.filter (fun time => decide (now - 86400000 < time))).filter
            (fun time => decide (now - 1000 < time))).length
        ∨ rl.limits.requestsPerHour ≤
          ((rl.requests.filter (fun time => decide (now - 86400000 < time))).filter
            (fun time => decide (now - 3600000 < time))).length
        ∨ rl.limits.requestsPerDay ≤
          (rl.requests.filter (fun time => decide (now - 86400000 < time))).length
    · rw [canMakeRequest_of_reject rl now hcond] at h
      simp at h
    · rw [canMakeRequest_of_allow rl now hcond]
  match ts, hts with
  | [], _ =>
    refine ⟨?_, ?_, ?_, hatomic⟩ <;> simp [admittedTimes, countIn]
  | t0 :: rest, hts =>
    have hchain : List.Chain (· ≤ ·) t0 (t0 :: rest) :=
      List.chain_cons.mpr ⟨le_refl t0, hts⟩
    have h := admittedTimes_bound_aux lims (t0 :: rest) [] t0 hchain
      (by simp) (by intro u; simp [countIn]) (by intro u; simp [countIn])
      (by intro u; simp [countIn]) t
    simp only [List.filter_nil, List.nil_append] at h
    exact ⟨h.1, h.2.1, h.2.2, hatomic⟩

/-- Concrete instantiation of `rateLimiter_soundness`: limits `⟨1, 5, 10⟩`,
calls at `[0, 0, 500, 1000]`, window ending at `1000`. -/
theorem rateLimiter_soundness_witness :
    countIn (admittedTimes ⟨[], ⟨1, 5, 10⟩⟩ [0, 0, 500, 1000]) 1000 1000 ≤ 1 ∧
    countIn (admittedTimes ⟨[], ⟨1, 5, 10⟩⟩ [0, 0, 500, 1000]) 1000 3600000 ≤ 5 ∧
    countIn (admittedTimes ⟨[], ⟨1, 5, 10⟩⟩ [0, 0, 500, 1000]) 1000 86400000 ≤ 10 ∧
    ∀ (rl : RateLimiter) (now : Int), (canMakeRequest rl now).1 = true →
      (canMakeRequest rl now).2.requests
        = rl.requests.filter (fun time => decide (now - 86400000 < time)) ++ [now] :=
  rateLimiter_soundness ⟨1, 5, 10⟩ [0, 0, 500, 1000] (by simp [List.chain'_cons]) 1000

/-- C2: a `canMakeRequest` call that returns `false` appends no timestamp —
the post-state log is exactly the day-pruned pre-state log — so every
trailing 1-second / 1-hour / 24-hour window ending at the call time or later
counts the same admitted requests before and after the call. -/
theorem rateLimiter_reject_frame (rl : RateLimiter) (now : Int)
    (h : (canMakeRequest rl now).1 = false) :
    (canMakeRequest rl now).2.requests
      = rl.requests.filter (fun time => decide (now - 86400000 < time)) ∧
    ∀ t w, now ≤ t → (w = 1000 ∨ w = 3600000 ∨ w = 86400000) →
      countIn (canMakeRequest rl now).2.requests t w = countIn rl.requests t w := by
  by_cases hcond : rl.limits.requestsPerSecond ≤
        ((rl.requests.filter (fun time => decide (now - 86400000 < time))).filter
          (fun time => decide (now - 1000 < time))).length
      ∨ rl.limits.requestsPerHour ≤
        ((rl.requests.filter (fun time => decide (now - 86400000 < time))).filter
          (fun time => decide (now - 3600000 < time))).length
      ∨ rl.limits.requestsPerDay ≤
        (rl.requests.filter (fun time => decide (now - 86400000 < time))).length
  · rw [canMakeRequest_of_reject rl now hcond]
    refine ⟨rfl, ?_⟩
    intro t w ht hw
    exact countIn_filter_of_le rl.requests (now - 86400000) t w (by omega)
  · rw [canMakeRequest_of_allow rl now hcond] at h
    simp at h

/-- Concrete instantiation of `rateLimiter_reject_frame`: zero limits reject
immediately and leave every window count unchanged. -/
theorem rateLimiter_reject_frame_witness :
    (canMakeRequest ⟨[], ⟨0, 0, 0⟩⟩ 0).1 = false ∧
    ((canMakeRequest ⟨[], ⟨0, 0, 0⟩⟩ 0).2.requests
        = List.filter (fun time => decide ((0 : Int) - 86400000 < time)) [] ∧
      ∀ t w, (0 : Int) ≤ t → (w = 1000 ∨ w = 3600000 ∨ w = 86400000) →
        countIn (canMakeRequest ⟨[], ⟨0, 0, 0⟩⟩ 0).2.requests t w = countIn [] t w) :=
  ⟨by decide, rateLimiter_reject_frame ⟨[], ⟨0, 0, 0⟩⟩ 0 (by decide)⟩

section LogLemmas

variable {β : Type}

theorem lastN_of_le {n : Nat} {l : List β} (h : l.length ≤ n) : lastN n l = l := by
  unfold lastN
  rw [Nat.sub_eq_zero_of_le h, List.drop_zero]

theorem lastN_length_le (n : Nat) (l : List β) : (lastN n l).length ≤ n := by
  unfold lastN
  rw [List.length_drop]
  omega

/-- Trimming an already-trimmed prefix before appending is the same as
trimming once at the end. -/
theorem lastN_append_lastN (n : Nat) (a b : List β) :
    lastN n (lastN n a ++ b) = lastN n (a ++ b) := by
  unfold lastN
  rw [List.length_append, List.length_append, List.length_drop]
  rw [List.drop_append_eq_append_drop, List.drop_append_eq_append_drop, List.drop_drop]
  rw [List.length_drop]
  congr 2
  · omega
  · omega

/-- `logEvent` in retention-view form: the new log is the last 10000 entries
of the old log with the new event appended. -/
theorem logEvent_events {α : Type} (st : MState α) (integrationId : String)
    (type : EventType) (direction : EDirection) (status : EStatus)
    (data : EventPayload α) (error : Option String)
    (metadata : Option EventMetadata) (now : Int) :
    (logEvent st integrationId type direction status data error metadata now).events
      = lastN 10000 (st.events ++
          [mkEvent st.eventCounter integrationId type direction status data
            error metadata now]) := by
  simp only [logEvent]
  split
  · rfl
  · rename_i hle
    rw [lastN_of_le (by omega)]

theorem logEvent_eventCounter {α : Type} (st : MState α) (integrationId : String)
    (type : EventType) (direction : EDirection) (status : EStatus)
    (data : EventPayload α) (error : Option String)
    (metadata : Option EventMetadata) (now : Int) :
    (logEvent st integrationId type direction status data error metadata now).eventCounter
      = st.eventCounter + 1 := rfl

theorem logEvent_integrations {α : Type} (st : MState α) (integrationId : String)
    (type : EventType) (direction : EDirection) (status : EStatus)
    (data : EventPayload α) (error : Option String)
    (metadata : Option EventMetadata) (now : Int) :
    (logEvent st integrationId type direction status data error metadata now).integrations
      = st.integrations := rfl

theorem logEvent_rateLimiters {α : Type} (st : MState α) (integrationId : String)
    (type : EventType) (direction : EDirection) (status : EStatus)
    (data : EventPayload α) (error : Option String)
    (metadata : Option EventMetadata) (now : Int) :
    (logEvent st integrationId type direction status data error metadata now).rateLimiters
      = st.rateLimiters := rfl

theorem logEvent_webhookHandlers {α : Type} (st : MState α) (integrationId : String)
    (type : EventType) (direction : EDirection) (status : EStatus)
    (data : EventPayload α) (error : Option String)
    (metadata : Option EventMetadata) (now : Int) :
    (logEvent st integrationId type direction status data error metadata now).webhookHandlers
      = st.webhookHandlers := rfl

end LogLemmas

/-- Folding `logEvent` keeps exactly the most recent 10000 events. -/
theorem foldl_applyLogCall_events {α : Type} (cs : List (LogCall α)) :
    ∀ st : MState α, st.events.length ≤ 10000 →
    (cs.foldl applyLogCall st).events
        = lastN 10000 (st.events ++ logCallEvents st.eventCounter cs) ∧
    (cs.foldl applyLogCall st).eventCounter = st.eventCounter + cs.length := by
  induction cs with
  | nil =>
    intro st hst
    refine ⟨?_, by simp⟩
    simp only [List.foldl_nil, logCallEvents, List.append_nil]
    exact (lastN_of_le hst).symm
  | cons c cs ih =>
    intro st hst
    simp only [List.foldl_cons, logCallEvents, List.length_cons]
    have hev := logEvent_events st c.integrationId c.type c.direction c.status
      c.data c.error c.metadata c.now
    have hlen : (applyLogCall st c).events.length ≤ 10000 := by
      rw [applyLogCall, hev]
      exact lastN_length_le _ _
    obtain ⟨h1, h2⟩ := ih (applyLogCall st c) hlen
    constructor
    · rw [h1]
      show lastN 10000 ((applyLogCall st c).events
          ++ logCallEvents (applyLogCall st c).eventCounter cs) = _
      rw [applyLogCall, hev, logEvent_eventCounter, lastN_append_lastN]
      simp [List.append_assoc]
    · rw [h2, applyLogCall, logEvent_eventCounter]
      omega

/-- C3: after any sequence of `logEvent` appends to a log currently within
capacity, the stored event array has length at most 10000 and consists of
exactly the most recently appended entries — the oldest are evicted first. -/
theorem eventLog_bound_fifo {α : Type} (st : MState α) (cs : List (LogCall α))
    (hst : st.events.length ≤ 10000) :
    (cs.foldl applyLogCall st).events.length ≤ 10000 ∧
    (cs.foldl applyLogCall st).events
      = (st.events ++ logCallEvents st.eventCounter cs).drop
          ((st.events ++ logCallEvents st.eventCounter cs).length - 10000) := by
  obtain ⟨h1, _⟩ := foldl_applyLogCall_events cs st hst
  refine ⟨?_, h1⟩
  rw [h1]
  exact lastN_length_le _ _

/-- Concrete instantiation of `eventLog_bound_fifo`: two appends to the
empty log. -/
theorem eventLog_bound_fifo_witness :
    ((MState.mk [] [] [] [] 0 : MState Nat).events.length ≤ 10000) ∧
    (([⟨"x", .api_call, .outbound, .success, .null, none, none, 5⟩,
       ⟨"x", .sync, .outbound, .failed, .syncDir .pull, some "boom", none, 6⟩]
        : List (LogCall Nat)).foldl applyLogCall (MState.mk [] [] [] [] 0)).events.length
      ≤ 10000 ∧
    (([⟨"x", .api_call, .outbound, .success, .null, none, none, 5⟩,
       ⟨"x", .sync, .outbound, .failed, .syncDir .pull, some "boom", none, 6⟩]
        : List (LogCall Nat)).foldl applyLogCall (MState.mk [] [] [] [] 0)).events
      = (((MState.mk [] [] [] [] 0 : MState Nat).events ++
            logCallEvents 0
              [⟨"x", .api_call, .outbound, .success, .null, none, none, 5⟩,
               ⟨"x", .sync, .outbound, .failed, .syncDir .pull, some "boom", none, 6⟩]).drop
          (((MState.mk [] [] [] [] 0 : MState Nat).events ++
            logCallEvents 0
              [⟨"x", .api_call, .outbound, .success, .null, none, none, 5⟩,
               ⟨"x", .sync, .outbound, .failed, .syncDir .pull, some "boom", none, 6⟩]).length
            - 10000)) :=
  ⟨by decide, eventLog_bound_fifo (MState.mk [] [] [] [] 0)
    [⟨"x", .api_call, .outbound, .success, .null, none, none, 5⟩,
     ⟨"x", .sync, .outbound, .failed, .syncDir .pull, some "boom", none, 6⟩]
    (by decide)⟩

/-- C4: `getMetrics` counts exactly the `api_call` events of the integration
inside the trailing window; successes and failures partition the total, and
the error rate is `failed / total * 100` for a nonempty total and `0` for an
empty one. -/
theorem metrics_consistency {α : Type} (st : MState α) (integrationId : String)
    (tf : Timeframe) (now : Int) :
    (getMetrics st integrationId tf now).totalRequests
        = (st.events.filter (fun e =>
            e.integrationId == integrationId
              && decide (metricsCutoff tf now < e.timestamp)
              && e.type == EventType.api_call)).length ∧
    (getMetrics st integrationId tf now).successfulRequests
        + (getMetrics st integrationId tf now).failedRequests
      = (getMetrics st integrationId tf now).totalRequests ∧
    (0 < (getMetrics st integrationId tf now).totalRequests →
      (getMetrics st integrationId tf now).errorRate
        = (((getMetrics st integrationId tf now).failedRequests : ℚ)
            / ((getMetrics st integrationId tf now).totalRequests : ℚ)) * 100) ∧
    ((getMetrics st integrationId tf now).totalRequests = 0 →
      (getMetrics st integrationId tf now).errorRate = 0) := by
  refine ⟨rfl, ?_, ?_, ?_⟩
  · simp only [getMetrics]
    have hle := List.length_filter_le (fun e : IntegrationEvent α => e.status == EStatus.success)
      (st.events.filter (fun e =>
        e.integrationId == integrationId
          && decide (metricsCutoff tf now < e.timestamp)
          && e.type == EventType.api_call))
    omega
  · intro h
    simp only [getMetrics] at h ⊢
    rw [if_pos h]
  · intro h
    simp only [getMetrics] at h ⊢
    rw [if_neg (by omega)]

section MapLemmas

variable {β : Type}

theorem getKey_setKey_self (l : List (String × β)) (k : String) (v : β) :
    getKey (setKey l k v) k = some v := by
  induction l with
  | nil => simp [setKey, getKey]
  | cons p rest ih =>
    obtain ⟨k', v'⟩ := p
    by_cases h : k' = k
    · simp [setKey, getKey, h]
    · simp [setKey, getKey, h, ih]

end MapLemmas

/-- The second limiter component never changes the configured limits. -/
theorem canMakeRequest_limits (rl : RateLimiter) (now : Int) :
    (canMakeRequest rl now).2.limits = rl.limits := by
  by_cases h : rl.limits.requestsPerSecond ≤
        ((rl.requests.filter (fun time => decide (now - 86400000 < time))).filter
          (fun time => decide (now - 1000 < time))).length
      ∨ rl.limits.requestsPerHour ≤
        ((rl.requests.filter (fun time => decide (now - 86400000 < time))).filter
          (fun time => decide (now - 3600000 < time))).length
      ∨ rl.limits.requestsPerDay ≤
        (rl.requests.filter (fun time => decide (now - 86400000 < time))).length
  · rw [canMakeRequest_of_reject rl now h]
  · rw [canMakeRequest_of_allow rl now h]

section MakeApiCallEval

variable {α : Type} (fetchFn : Transport α) (st : MState α)
variable (integrationId method endpoint : String) (data : Option α)
variable (headers : List (String × String)) (now responseTime : Int)

theorem makeApiCall_eval_notfound
    (h : getKey st.integrations integrationId = none) :
    makeApiCall fetchFn st integrationId method endpoint data headers now responseTime
      = (st, .error ("Integration " ++ integrationId ++ " not found")) := by
  simp [makeApiCall, h]

theorem makeApiCall_eval_ratelimited (rl rl' : RateLimiter)
    (hcfg : (getKey st.integrations integrationId).isSome = true)
    (hrl : getKey st.rateLimiters integrationId = some rl)
    (hstep : canMakeRequest rl now = (false, rl')) :
    makeApiCall fetchFn st integrationId method endpoint data headers now responseTime
      = ({ st with rateLimiters := setKey st.rateLimiters integrationId rl' },
         .error "Rate limit exceeded") := by
  obtain ⟨integration, hc⟩ := Option.isSome_iff_exists.mp hcfg
  simp [makeApiCall, hc, hrl, hstep]

theorem makeApiCall_eval_nolim_ok (integration : IntegrationConfig) (resp : Response)
    (hcfg : getKey st.integrations integrationId = some integration)
    (hlim : getKey st.rateLimiters integrationId = none)
    (hf : fetchFn method endpoint data (buildRequestHeaders integration headers)
      = .ok resp) :
    makeApiCall fetchFn st integrationId method endpoint data headers now responseTime
      = (logEvent st integrationId .api_call .outbound
          (if resp.ok then .success else .failed)
          (.apiCall method endpoint data)
          (if resp.ok then none else some ("HTTP " ++ toString resp.status))
          (some { endpoint := some endpoint, httpStatus := some resp.status,
                  responseTime := some responseTime }) now,
         .ok resp) := by
  simp [makeApiCall, hcfg, hlim, hf]

theorem makeApiCall_eval_nolim_err (integration : IntegrationConfig) (e : String)
    (hcfg : getKey st.integrations integrationId = some integration)
    (hlim : getKey st.rateLimiters integrationId = none)
    (hf : fetchFn method endpoint data (buildRequestHeaders integration headers)
      = .error e) :
    makeApiCall fetchFn st integrationId method endpoint data headers now responseTime
      = (logEvent st integrationId .api_call .outbound .failed
          (.apiCall method endpoint data) (some e)
          (some { endpoint := some endpoint, httpStatus := none,
                  responseTime := some responseTime }) now,
         .error e) := by
  simp [makeApiCall, hcfg, hlim, hf]

theorem makeApiCall_eval_admit_ok (integration : IntegrationConfig)
    (rl rl' : RateLimiter) (resp : Response)
    (hcfg : getKey st.integrations integrationId = some integration)
    (hrl : getKey st.rateLimiters integrationId = some rl)
    (hstep : canMakeRequest rl now = (true, rl'))
    (hf : fetchFn method endpoint data (buildRequestHeaders integration headers)
      = .ok resp) :
    makeApiCall fetchFn st integrationId method endpoint data headers now responseTime
      = (logEvent { st with rateLimiters := setKey st.rateLimiters integrationId rl' }
          integrationId .api_call .outbound
          (if resp.ok then .success else .failed)
          (.apiCall method endpoint data)
          (if resp.ok then none else some ("HTTP " ++ toString resp.status))
          (some { endpoint := some endpoint, httpStatus := some resp.status,
                  responseTime := some responseTime }) now,
         .ok resp) := by
  simp [makeApiCall, hcfg, hrl, hstep, hf]

theorem makeApiCall_eval_admit_err (integration : IntegrationConfig)
    (rl rl' : RateLimiter) (e : String)
    (hcfg : getKey st.integrations integrationId = some integration)
    (hrl : getKey st.rateLimiters integrationId = some rl)
    (hstep : canMakeRequest rl now = (true, rl'))
    (hf : fetchFn method endpoint data (buildRequestHeaders integration headers)
      = .error e) :
    makeApiCall fetchFn st integrationId method endpoint data headers now responseTime
      = (logEvent { st with rateLimiters := setKey st.rateLimiters integrationId rl' }
          integrationId .api_call .outbound .failed
          (.apiCall method endpoint data) (some e)
          (some { endpoint := some endpoint, httpStatus := none,
                  responseTime := some responseTime }) now,
         .error e) := by
  simp [makeApiCall, hcfg, hrl, hstep, hf]

end MakeApiCallEval

/-- C9: when a rate limiter is bound to the integration and rejects, the
dispatcher fails with "Rate limit exceeded", the result does not depend on
the transport at all (no network request is issued), and the event log is
unchanged — only the limiter's pruned timestamp log is written back. -/
theorem dispatcher_rate_limit_rejection {α : Type} (st : MState α)
    (integrationId method endpoint : String) (data : Option α)
    (headers : List (String × String)) (now responseTime : Int)
    (integration : IntegrationConfig) (rl : RateLimiter)
    (hcfg : getKey st.integrations integrationId = some integration)
    (hrl : getKey st.rateLimiters integrationId = some rl)
    (hreject : (canMakeRequest rl now).1 = false) :
    ∀ fetchFn : Transport α,
      makeApiCall fetchFn st integrationId method endpoint data headers now responseTime
        = ({ st with
              rateLimiters := setKey st.rateLimiters integrationId (canMakeRequest rl now).2 },
           .error "Rate limit exceeded") ∧
      (makeApiCall fetchFn st integrationId method endpoint data headers now
        responseTime).1.events = st.events := by
  intro fetchFn
  have hstep : canMakeRequest rl now = (false, (canMakeRequest rl now).2) := by
    rw [← hreject]
  have h := makeApiCall_eval_ratelimited fetchFn st integrationId method endpoint
    data headers now responseTime rl (canMakeRequest rl now).2
    (by rw [hcfg]; rfl) hrl hstep
  exact ⟨h, by rw [h]⟩

/-- Concrete instantiation of `dispatcher_rate_limit_rejection`: zero limits
bound to integration "x" reject a call, here under the HTTP-500 transport. -/
theorem dispatcher_rate_limit_rejection_witness :
    makeApiCall fetch500 limitedStateX "x" "GET" "B/health" none [] 5 1
        = ({ limitedStateX with
              rateLimiters := setKey limitedStateX.rateLimiters "x"
                (canMakeRequest ⟨[], ⟨0, 0, 0⟩⟩ 5).2 },
           .error "Rate limit exceeded") ∧
    (makeApiCall fetch500 limitedStateX "x" "GET" "B/health" none [] 5 1).1.events
        = limitedStateX.events :=
  dispatcher_rate_limit_rejection limitedStateX "x" "GET" "B/health" none [] 5 1
    cfgX ⟨[], ⟨0, 0, 0⟩⟩ (by rfl) (by rfl) (by decide) fetch500

/-- C7 (amended): an `integrationId` absent from the Registry makes `update`,
`testConnection` and the Dispatcher's `call` fail with the caller-visible
"Integration ... not found" error; `sync`, however, silently returns with the
state unchanged and no exception. -/
theorem configuration_error_propagation {α : Type} (st : MState α) (id : String)
    (u : ConfigUpdate) (fetchFn : Transport α) (method endpoint : String)
    (data : Option α) (headers : List (String × String))
    (pullData pushData : String → Except String Unit) (direction : SyncDirection)
    (now responseTime : Int)
    (h : getKey st.integrations id = none) :
    updateIntegration st id u now = .error ("Integration " ++ id ++ " not found") ∧
    testIntegration fetchFn st id now responseTime
      = (st, .error ("Integration " ++ id ++ " not found")) ∧
    makeApiCall fetchFn st id method endpoint data headers now responseTime
      = (st, .error ("Integration " ++ id ++ " not found")) ∧
    syncData pullData pushData st id direction now = (st, .ok ()) := by
  refine ⟨?_, ?_, ?_, ?_⟩
  · simp [updateIntegration, h]
  · simp [testIntegration, h]
  · simp [makeApiCall, h]
  · simp [syncData, h]

/-- Concrete instantiation of `configuration_error_propagation` on the empty
registry. -/
theorem configuration_error_propagation_witness :
    updateIntegration (⟨[], [], [], [], 0⟩ : MState Nat) "ghost" {} 0
        = .error ("Integration " ++ "ghost" ++ " not found") ∧
    testIntegration (fun _ _ _ _ => .error "net") (⟨[], [], [], [], 0⟩ : MState Nat)
        "ghost" 0 0
      = (⟨[], [], [], [], 0⟩, .error ("Integration " ++ "ghost" ++ " not found")) ∧
    makeApiCall (fun _ _ _ _ => .error "net") (⟨[], [], [], [], 0⟩ : MState Nat)
        "ghost" "GET" "u" none [] 0 0
      = (⟨[], [], [], [], 0⟩, .error ("Integration " ++ "ghost" ++ " not found")) ∧
    syncData (fun _ => .ok ()) (fun _ => .ok ())
        (⟨[], [], [], [], 0⟩ : MState Nat) "ghost" .pull 0
      = (⟨[], [], [], [], 0⟩, .ok ()) :=
  configuration_error_propagation _ "ghost" {} _ "GET" "u" none [] _ _ .pull 0 0 rfl

/-- C7 counterexample: the claim requires a caller-visible
`ConfigurationError` from every operation given an unknown id, `sync`
included; but `syncData` on the empty registry with the unknown id "ghost"
returns normally with the state unchanged and no exception. -/
theorem configuration_error_sync_counterexample :
    syncData (fun _ => .ok ()) (fun _ => .ok ())
        (⟨[], [], [], [], 0⟩ : MState Nat) "ghost" .pull 0
      = (⟨[], [], [], [], 0⟩, .ok ()) := rfl

/-- C8 counterexample: a health check answered by HTTP 500 (a non-2xx
response) sets `status = error` but records only an `api_call`-type failed
event — no `error`-type Event is appended, contrary to the claim. -/
theorem testConnection_counterexample :
    (getKey (testIntegration fetch500 registryStateX "x" 1 2).1.integrations "x").map
        (fun c => c.status) = some Status.error ∧
    (testIntegration fetch500 registryStateX "x" 1 2).2 = .ok false ∧
    ((testIntegration fetch500 registryStateX "x" 1 2).1.events.map (fun e => e.type))
      = [EventType.api_call] := by
  refine ⟨?_, ?_, ?_⟩ <;> rfl

/-- Evaluation of the `catch` block of `testIntegration` when the
integration is present. -/
theorem testCatch_eval {α : Type} (st : MState α) (id e : String) (now : Int)
    (integration : IntegrationConfig)
    (hcfg : getKey st.integrations id = some integration) :
    testCatch st id e now
      = (logEvent
          { st with integrations :=
              setKey st.integrations id (applyUpdate integration (statusUpdate .error) now) }
          id .error .outbound .failed .null (some e) none now,
         .ok false) := by
  simp [testCatch, updateIntegration, hcfg]

/-- When no limiter is bound, or the bound limiter admits the call, the
dispatcher reaches the transport: there is a post-admission state — equal to
the input state except possibly for the written-back limiter — from which
both transport outcomes log through `logEvent`. -/
theorem makeApiCall_eval_admitted {α : Type} (fetchFn : Transport α)
    (st : MState α) (integrationId method endpoint : String) (data : Option α)
    (headers : List (String × String)) (now responseTime : Int)
    (integration : IntegrationConfig)
    (hcfg : getKey st.integrations integrationId = some integration)
    (hadm : ∀ rl, getKey st.rateLimiters integrationId = some rl →
      (canMakeRequest rl now).1 = true) :
    ∃ st1 : MState α,
      st1.integrations = st.integrations ∧
      st1.events = st.events ∧
      st1.eventCounter = st.eventCounter ∧
      (∀ resp : Response,
        fetchFn method endpoint data (buildRequestHeaders integration headers)
          = .ok resp →
        makeApiCall fetchFn st integrationId method endpoint data headers now
            responseTime
          = (logEvent st1 integrationId .api_call .outbound
              (if resp.ok then .success else .failed)
              (.apiCall method endpoint data)
              (if resp.ok then none else some ("HTTP " ++ toString resp.status))
              (some { endpoint := some endpoint, httpStatus := some resp.status,
                      responseTime := some responseTime }) now,
             .ok resp)) ∧
      (∀ e : String,
        fetchFn method endpoint data (buildRequestHeaders integration headers)
          = .error e →
        makeApiCall fetchFn st integrationId method endpoint data headers now
            responseTime
          = (logEvent st1 integrationId .api_call .outbound .failed
              (.apiCall method endpoint data) (some e)
              (some { endpoint := some endpoint, httpStatus := none,
                      responseTime := some responseTime }) now,
             .error e)) := by
  cases hrl : getKey st.rateLimiters integrationId with
  | none =>
    refine ⟨st, rfl, rfl, rfl, ?_, ?_⟩
    · intro resp hf
      exact makeApiCall_eval_nolim_ok fetchFn st integrationId method endpoint
        data headers now responseTime integration resp hcfg hrl hf
    · intro e hf
      exact makeApiCall_eval_nolim_err fetchFn st integrationId method endpoint
        data headers now responseTime integration e hcfg hrl hf
  | some rl =>
    have hstep : canMakeRequest rl now = (true, (canMakeRequest rl now).2) := by
      rw [← hadm rl hrl]
    refine ⟨setLimiters st (setKey st.rateLimiters integrationId
      (canMakeRequest rl now).2), rfl, rfl, rfl, ?_, ?_⟩
    · intro resp hf
      have h := makeApiCall_eval_admit_ok fetchFn st integrationId method endpoint
        data headers now responseTime integration rl (canMakeRequest rl now).2
        resp hcfg hrl hstep hf
      simpa [setLimiters] using h
    · intro e hf
      have h := makeApiCall_eval_admit_err fetchFn st integrationId method endpoint
        data headers now responseTime integration rl (canMakeRequest rl now).2
        e hcfg hrl hstep hf
      simpa [setLimiters] using h

/-- C8 (amended): for a registered integration whose health check reaches the
transport (no limiter bound, or the bound limiter admits), a 2xx health
response sets `status = active`; a non-2xx response sets `status = error` but
records only an `api_call`-type failed Event (never an `error`-type one); a
thrown transport error sets `status = error` and records an `error`-type
Event after the dispatcher's `api_call` failed Event. -/
theorem testConnection_outcome {α : Type} (fetchFn : Transport α) (st : MState α)
    (id : String) (now responseTime : Int) (integration : IntegrationConfig)
    (hcfg : getKey st.integrations id = some integration)
    (hadm : ∀ rl, getKey st.rateLimiters id = some rl →
      (canMakeRequest rl now).1 = true) :
    (∀ resp : Response,
      fetchFn "GET" (integration.endpoints.base ++ "/health") none
          (buildRequestHeaders integration []) = .ok resp →
      resp.ok = true →
      (getKey (testIntegration fetchFn st id now responseTime).1.integrations id).map
          (fun c => c.status) = some Status.active ∧
      (testIntegration fetchFn st id now responseTime).2 = .ok true) ∧
    (∀ resp : Response,
      fetchFn "GET" (integration.endpoints.base ++ "/health") none
          (buildRequestHeaders integration []) = .ok resp →
      resp.ok = false →
      (getKey (testIntegration fetchFn st id now responseTime).1.integrations id).map
          (fun c => c.status) = some Status.error ∧
      (testIntegration fetchFn st id now responseTime).2 = .ok false ∧
      (testIntegration fetchFn st id now responseTime).1.events
        = lastN 10000 (st.events ++
            [mkEvent st.eventCounter id .api_call .outbound .failed
              (.apiCall "GET" (integration.endpoints.base ++ "/health") none)
              (some ("HTTP " ++ toString resp.status))
              (some { endpoint := some (integration.endpoints.base ++ "/health"),
                      httpStatus := some resp.status,
                      responseTime := some responseTime }) now]) ∧
      (∀ ev ∈ (testIntegration fetchFn st id now responseTime).1.events,
        ev.type = EventType.error → ev ∈ st.events)) ∧
    (∀ e : String,
      fetchFn "GET" (integration.endpoints.base ++ "/health") none
          (buildRequestHeaders integration []) = .error e →
      (getKey (testIntegration fetchFn st id now responseTime).1.integrations id).map
          (fun c => c.status) = some Status.error ∧
      (testIntegration fetchFn st id now responseTime).2 = .ok false ∧
      (testIntegration fetchFn st id now responseTime).1.events
        = lastN 10000 (st.events ++
            [mkEvent st.eventCounter id .api_call .outbound .failed
              (.apiCall "GET" (integration.endpoints.base ++ "/health") none) (some e)
              (some { endpoint := some (integration.endpoints.base ++ "/health"),
                      httpStatus := none, responseTime := some responseTime }) now,
             mkEvent (st.eventCounter + 1) id .error .outbound .failed .null (some e)
              none now])) := by
  obtain ⟨st1, hint, hev0, hctr, hmok, hmerr⟩ := makeApiCall_eval_admitted fetchFn
    st id "GET" (integration.endpoints.base ++ "/health") none [] now responseTime
    integration hcfg hadm
  refine ⟨?_, ?_, ?_⟩
  · intro resp hf hok
    have hm := hmok resp hf
    simp [testIntegration, hcfg, hm, hok, hint, updateIntegration,
      logEvent_integrations, getKey_setKey_self, applyUpdate, statusUpdate]
  · intro resp hf hok
    have hm := hmok resp hf
    have hev := logEvent_events st1 id .api_call .outbound .failed
      (.apiCall "GET" (integration.endpoints.base ++ "/health") none)
      (some ("HTTP " ++ toString resp.status))
      (some { endpoint := some (integration.endpoints.base ++ "/health"),
              httpStatus := some resp.status, responseTime := some responseTime }) now
    refine ⟨?_, ?_, ?_, ?_⟩
    · simp [testIntegration, hcfg, hm, hok, hint, updateIntegration,
        logEvent_integrations, getKey_setKey_self, applyUpdate, statusUpdate]
    · simp [testIntegration, hcfg, hm, hok, hint, updateIntegration,
        logEvent_integrations, getKey_setKey_self]
    · simp only [testIntegration, hcfg, hm, hok]
      simp [updateIntegration, logEvent_integrations, hcfg, hok, hev, hint,
        hev0, hctr]
    · intro ev hmem hty
      have hevents : (testIntegration fetchFn st id now responseTime).1.events
          = lastN 10000 (st.events ++
              [mkEvent st.eventCounter id .api_call .outbound .failed
                (.apiCall "GET" (integration.endpoints.base ++ "/health") none)
                (some ("HTTP " ++ toString resp.status))
                (some { endpoint := some (integration.endpoints.base ++ "/health"),
                        httpStatus := some resp.status,
                        responseTime := some responseTime }) now]) := by
        simp only [testIntegration, hcfg, hm, hok]
        simp [updateIntegration, logEvent_integrations, hcfg, hok, hev, hint,
          hev0, hctr]
      rw [hevents] at hmem
      have hmem' := List.mem_of_mem_drop hmem
      rcases List.mem_append.mp hmem' with hin | hin
      · exact hin
      · simp only [List.mem_singleton] at hin
        rw [hin] at hty
        simp [mkEvent] at hty
  · intro e hf
    have hm := hmerr e hf
    have hS1 : getKey (logEvent st1 id .api_call .outbound .failed
        (.apiCall "GET" (integration.endpoints.base ++ "/health") none) (some e)
        (some { endpoint := some (integration.endpoints.base ++ "/health"),
                httpStatus := none, responseTime := some responseTime }) now).integrations id
        = some integration := by
      rw [logEvent_integrations, hint]; exact hcfg
    have hcatch : testIntegration fetchFn st id now responseTime
        = testCatch (logEvent st1 id .api_call .outbound .failed
            (.apiCall "GET" (integration.endpoints.base ++ "/health") none) (some e)
            (some { endpoint := some (integration.endpoints.base ++ "/health"),
                    httpStatus := none, responseTime := some responseTime }) now)
            id e now := by
      simp only [testIntegration, hcfg, hm]
    rw [hcatch, testCatch_eval _ id e now integration hS1]
    refine ⟨?_, rfl, ?_⟩
    · simp [logEvent_integrations, getKey_setKey_self, applyUpdate, statusUpdate]
    · rw [logEvent_events]
      show lastN 10000 ((logEvent st1 id EventType.api_call EDirection.outbound
          EStatus.failed (.apiCall "GET" (integration.endpoints.base ++ "/health") none)
          (some e)
          (some { endpoint := some (integration.endpoints.base ++ "/health"),
                  httpStatus := none, responseTime := some responseTime }) now).events
            ++ [mkEvent ((logEvent st1 id EventType.api_call EDirection.outbound
                EStatus.failed
                (.apiCall "GET" (integration.endpoints.base ++ "/health") none)
                (some e)
                (some { endpoint := some (integration.endpoints.base ++ "/health"),
                        httpStatus := none, responseTime := some responseTime })
                now).eventCounter) id .error .outbound .failed .null
                  (some e) none now]) = _
      rw [logEvent_events, logEvent_eventCounter, lastN_append_lastN]
      simp [List.append_assoc, hev0, hctr]

/-- Concrete instantiation of `testConnection_outcome` (non-2xx branch) on
`limitedOkStateX`, whose bound limiter admits the health check, with the
HTTP-500 transport. -/
theorem testConnection_outcome_witness :
    (getKey (testIntegration fetch500 limitedOkStateX "x" 1 2).1.integrations "x").map
        (fun c => c.status) = some Status.error ∧
    (testIntegration fetch500 limitedOkStateX "x" 1 2).2 = .ok false ∧
    (testIntegration fetch500 limitedOkStateX "x" 1 2).1.events
      = lastN 10000 (limitedOkStateX.events ++
          [mkEvent limitedOkStateX.eventCounter "x" .api_call .outbound .failed
            (.apiCall "GET" (cfgX.endpoints.base ++ "/health") none)
            (some ("HTTP " ++ toString (500 : Nat)))
            (some { endpoint := some (cfgX.endpoints.base ++ "/health"),
                    httpStatus := some 500, responseTime := some 2 }) 1]) ∧
    (∀ ev ∈ (testIntegration fetch500 limitedOkStateX "x" 1 2).1.events,
      ev.type = EventType.error → ev ∈ limitedOkStateX.events) := by
  have h := (testConnection_outcome fetch500 limitedOkStateX "x" 1 2 cfgX rfl
    (by intro rl hr; simp [limitedOkStateX, getKey] at hr; subst hr; decide)).2.1
    ⟨false, 500⟩ rfl rfl
  exact ⟨h.1, h.2.1, h.2.2.1, h.2.2.2⟩

/-- Folding the per-handler log step appends exactly one outcome event per
handler, trimmed to the retention capacity. -/
theorem foldl_webhookStep_events {α : Type} (integrationId : String) (data : α)
    (now : Int) (hs : List (WebhookHandler α)) :
    ∀ st : MState α, st.events.length ≤ 10000 →
    (hs.foldl
      (fun s h =>
        match h.handler data with
        | .ok _ => logEvent s integrationId .webhook .inbound .success
            (.webhookData data) none none now
        | .error e => logEvent s integrationId .webhook .inbound .failed
            (.webhookData data) (some e) none now)
      st).events
      = lastN 10000 (st.events
          ++ webhookOutcomeEvents st.eventCounter integrationId data now hs) ∧
    (hs.foldl
      (fun s h =>
        match h.handler data with
        | .ok _ => logEvent s integrationId .webhook .inbound .success
            (.webhookData data) none none now
        | .error e => logEvent s integrationId .webhook .inbound .failed
            (.webhookData data) (some e) none now)
      st).eventCounter = st.eventCounter + hs.length := by
  induction hs with
  | nil =>
    intro st hst
    refine ⟨?_, by simp⟩
    simp only [List.foldl_nil, webhookOutcomeEvents, List.append_nil]
    exact (lastN_of_le hst).symm
  | cons h hs ih =>
    intro st hst
    simp only [List.foldl_cons, webhookOutcomeEvents, List.length_cons]
    cases hh : h.handler data with
    | ok u =>
      obtain ⟨i1, i2⟩ := ih (logEvent st integrationId .webhook .inbound .success
        (.webhookData data) none none now) (by rw [logEvent_events]; exact lastN_length_le _ _)
      constructor
      · rw [i1, logEvent_events, logEvent_eventCounter, lastN_append_lastN]
        simp [List.append_assoc]
      · rw [i2, logEvent_eventCounter]
        omega
    | error e =>
      obtain ⟨i1, i2⟩ := ih (logEvent st integrationId .webhook .inbound .failed
        (.webhookData data) (some e) none now) (by rw [logEvent_events]; exact lastN_length_le _ _)
      constructor
      · rw [i1, logEvent_events, logEvent_eventCounter, lastN_append_lastN]
        simp [List.append_assoc]
      · rw [i2, logEvent_eventCounter]
        omega

/-- C5: with at least two matching handlers, `handleWebhook` runs every
matching handler and logs, per handler, a `webhook`/`inbound` event whose
status is the handler's own outcome — `failed` with the thrown message for a
throwing handler, `success` otherwise — so one handler's failure suppresses
neither the remaining handlers nor their success events; `handleWebhook`
itself returns a state (total), never an exception. -/
theorem webhook_handler_isolation {α : Type} (st : MState α)
    (integrationId eventType : String) (data : α) (now : Int)
    (hcap : st.events.length ≤ 10000)
    (_htwo : 2 ≤ (((getKey st.webhookHandlers integrationId).getD []).filter
      (fun h => h.eventTypes.contains eventType)).length) :
    (handleWebhook st integrationId eventType data now).events
      = lastN 10000 (st.events
          ++ webhookOutcomeEvents st.eventCounter integrationId data now
              (((getKey st.webhookHandlers integrationId).getD []).filter
                (fun h => h.eventTypes.contains eventType))) := by
  exact (foldl_webhookStep_events integrationId data now _ st hcap).1

/-- Concrete instantiation of `webhook_handler_isolation`: a throwing and a
succeeding handler for the same event. -/
theorem webhook_handler_isolation_witness :
    webhookStateZ.events.length ≤ 10000 ∧
    2 ≤ (((getKey webhookStateZ.webhookHandlers "z").getD []).filter
      (fun h => h.eventTypes.contains "invoice.paid")).length ∧
    (handleWebhook webhookStateZ "z" "invoice.paid" 7 5).events
      = lastN 10000 (webhookStateZ.events
          ++ webhookOutcomeEvents webhookStateZ.eventCounter "z" 7 5
              (((getKey webhookStateZ.webhookHandlers "z").getD []).filter
                (fun h => h.eventTypes.contains "invoice.paid"))) :=
  ⟨by decide, by decide,
    webhook_handler_isolation webhookStateZ "z" "invoice.paid" 7 5 (by decide) (by decide)⟩

/-- C6: for a registered, sync-enabled integration, a throwing pull/push step
makes `syncData` return normally with exactly one `sync`/`outbound`/`failed`
event carrying the step's error message and the stored config — in
particular `settings.lastSync` — unchanged; when the steps succeed,
`settings.lastSync` is stamped to now. -/
theorem sync_error_absorption {α : Type}
    (pullData pushData : String → Except String Unit) (st : MState α)
    (integrationId : String) (direction : SyncDirection) (now : Int)
    (integration : IntegrationConfig)
    (hcfg : getKey st.integrations integrationId = some integration)
    (hsync : integration.settings.syncEnabled = true) :
    (∀ e, runSyncSteps pullData pushData integrationId direction = .error e →
      syncData pullData pushData st integrationId direction now
        = (logEvent st integrationId .sync .outbound .failed (.syncDir direction)
            (some e) none now, .ok ()) ∧
      getKey (syncData pullData pushData st integrationId direction
          now).1.integrations integrationId = some integration) ∧
    (runSyncSteps pullData pushData integrationId direction = .ok () →
      (syncData pullData pushData st integrationId direction now).2 = .ok () ∧
      ∃ c, getKey (syncData pullData pushData st integrationId direction
            now).1.integrations integrationId = some c ∧
        c.settings.lastSync = some now) := by
  constructor
  · intro e hfail
    have heq : syncData pullData pushData st integrationId direction now
        = (logEvent st integrationId .sync .outbound .failed (.syncDir direction)
            (some e) none now, .ok ()) := by
      simp [syncData, hcfg, hsync, hfail]
    refine ⟨heq, ?_⟩
    rw [heq]
    simp only [logEvent_integrations]
    exact hcfg
  · intro hok
    have heq : syncData pullData pushData st integrationId direction now
        = (logEvent
            (setIntegrations st (setKey st.integrations integrationId
              (applyUpdate integration (lastSyncUpdate integration.settings now) now)))
            integrationId .sync .outbound .success (.syncDir direction) none none now,
           .ok ()) := by
      simp [syncData, hcfg, hsync, hok, updateIntegration, setIntegrations]
    refine ⟨by rw [heq], ?_⟩
    refine ⟨applyUpdate integration (lastSyncUpdate integration.settings now) now, ?_, ?_⟩
    · rw [heq]
      simp only [logEvent_integrations, setIntegrations]
      exact getKey_setKey_self _ _ _
    · simp [applyUpdate, lastSyncUpdate]

/-- Concrete instantiation of `sync_error_absorption`: a throwing pull step. -/
theorem sync_error_absorption_witness :
    (syncData (fun _ => .error "pull down") (fun _ => .ok ()) syncStateW "w" .pull 9
        = (logEvent syncStateW "w" .sync .outbound .failed (.syncDir .pull)
            (some "pull down") none 9, .ok ()) ∧
      getKey (syncData (fun _ => .error "pull down") (fun _ => .ok ()) syncStateW "w"
          .pull 9).1.integrations "w" = some cfgW) :=
  (sync_error_absorption (fun _ => .error "pull down") (fun _ => .ok ()) syncStateW
    "w" .pull 9 cfgW rfl rfl).1 "pull down" rfl

/-- Whatever the transport answers, `testIntegration` on an integration with
a bound limiter ends with some status written to the stored config, the
limiter stepped once by `canMakeRequest`, and a normally returned Bool. -/
theorem testIntegration_shape_limited {α : Type} (fetchFn : Transport α)
    (st : MState α) (id : String) (now responseTime : Int)
    (integration : IntegrationConfig) (rl : RateLimiter)
    (hcfg : getKey st.integrations id = some integration)
    (hrl : getKey st.rateLimiters id = some rl) :
    ∃ (stt : Status) (b : Bool),
      (testIntegration fetchFn st id now responseTime).2 = .ok b ∧
      (testIntegration fetchFn st id now responseTime).1.integrations
        = setKey st.integrations id (applyUpdate integration (statusUpdate stt) now) ∧
      (testIntegration fetchFn st id now responseTime).1.rateLimiters
        = setKey st.rateLimiters id (canMakeRequest rl now).2 := by
  rcases hc : canMakeRequest rl now with ⟨b0, rl'⟩
  have hbase : (getKey st.integrations id).isSome = true := by rw [hcfg]; rfl
  cases b0 with
  | false =>
    have hm := makeApiCall_eval_ratelimited fetchFn st id "GET"
      (integration.endpoints.base ++ "/health") none [] now responseTime rl rl'
      hbase hrl hc
    have hcatch : testIntegration fetchFn st id now responseTime
        = testCatch (setLimiters st (setKey st.rateLimiters id rl')) id
            "Rate limit exceeded" now := by
      simp only [testIntegration, hcfg, hm, setLimiters]
    have hS : getKey (setLimiters st (setKey st.rateLimiters id rl')).integrations id
        = some integration := hcfg
    rw [hcatch, testCatch_eval _ id _ now integration hS]
    exact ⟨.error, false, rfl, by simp [setLimiters, logEvent_integrations],
      by simp [setLimiters, logEvent_rateLimiters]⟩
  | true =>
    cases hf : fetchFn "GET" (integration.endpoints.base ++ "/health") none
        (buildRequestHeaders integration []) with
    | error e =>
      have hm := makeApiCall_eval_admit_err fetchFn st id "GET"
        (integration.endpoints.base ++ "/health") none [] now responseTime
        integration rl rl' e hcfg hrl hc hf
      have hcatch : testIntegration fetchFn st id now responseTime
          = testCatch (logEvent (setLimiters st (setKey st.rateLimiters id rl'))
              id .api_call .outbound .failed
              (.apiCall "GET" (integration.endpoints.base ++ "/health") none) (some e)
              (some { endpoint := some (integration.endpoints.base ++ "/health"),
                      httpStatus := none, responseTime := some responseTime }) now)
              id e now := by
        simp only [testIntegration, hcfg, hm, setLimiters]
      have hS : getKey (logEvent (setLimiters st (setKey st.rateLimiters id rl'))
          id .api_call .outbound .failed
          (.apiCall "GET" (integration.endpoints.base ++ "/health") none) (some e)
          (some { endpoint := some (integration.endpoints.base ++ "/health"),
                  httpStatus := none, responseTime := some responseTime })
          now).integrations id = some integration := by
        rw [logEvent_integrations]; exact hcfg
      rw [hcatch, testCatch_eval _ id _ now integration hS]
      exact ⟨.error, false, rfl,
        by simp [setLimiters, logEvent_integrations],
        by simp [setLimiters, logEvent_rateLimiters]⟩
    | ok resp =>
      have hm := makeApiCall_eval_admit_ok fetchFn st id "GET"
        (integration.endpoints.base ++ "/health") none [] now responseTime
        integration rl rl' resp hcfg hrl hc hf
      have hS : getKey (logEvent (setLimiters st (setKey st.rateLimiters id rl'))
          id .api_call .outbound
          (if resp.ok then .success else .failed)
          (.apiCall "GET" (integration.endpoints.base ++ "/health") none)
          (if resp.ok then none else some ("HTTP " ++ toString resp.status))
          (some { endpoint := some (integration.endpoints.base ++ "/health"),
                  httpStatus := some resp.status, responseTime := some responseTime })
          now).integrations id = some integration := by
        rw [logEvent_integrations]; exact hcfg
      cases hro : resp.ok with
      | true =>
        refine ⟨.active, true, ?_, ?_, ?_⟩ <;>
          simp [testIntegration, hcfg, hm, hro, updateIntegration, setLimiters,
            logEvent_integrations, logEvent_rateLimiters, hc]
      | false =>
        refine ⟨.error, false, ?_, ?_, ?_⟩ <;>
          simp [testIntegration, hcfg, hm, hro, updateIntegration, setLimiters,
            logEvent_integrations, logEvent_rateLimiters, hc]

/-- When the new config declares no `rateLimits`, `registerIntegration`
reduces to storing the fresh config and running `testIntegration`, returning
the id. -/
theorem registerIntegration_eval_nolimits {α : Type} (fetchFn : Transport α)
    (st : MState α) (config : IntegrationConfig) (now responseTime : Int)
    (hnew : config.settings.rateLimits = none) (b : Bool)
    (hres : (testIntegration fetchFn
        (setIntegrations st (setKey st.integrations config.id (freshConfig config now)))
        config.id now responseTime).2 = .ok b) :
    registerIntegration fetchFn st config now responseTime
      = ((testIntegration fetchFn
          (setIntegrations st (setKey st.integrations config.id (freshConfig config now)))
          config.id now responseTime).1,
         .ok config.id) := by
  have hfresh : (freshConfig config now).settings.rateLimits = none := by
    simp [freshConfig, hnew]
  have hid : (freshConfig config now).id = config.id := rfl
  simp only [registerIntegration, hfresh, hid, setIntegrations] at hres ⊢
  simp only [hres]

/-- C10: re-registering an already-registered id whose new config declares no
`settings.rateLimits` fully replaces the stored `IntegrationConfig` with the
new one (modulo the registration-time status/timestamp writes), yet the
previously bound limiter stays in the limiter map with its old limits — it
is merely stepped once by the registration health check — so subsequent
dispatcher calls for the integration are still throttled by the old limits. -/
theorem stale_limiter_on_reregistration {α : Type} (fetchFn : Transport α)
    (st : MState α) (config : IntegrationConfig) (now responseTime : Int)
    (rlOld : RateLimiter)
    (hrl : getKey st.rateLimiters config.id = some rlOld)
    (hnew : config.settings.rateLimits = none) :
    (∃ c, getKey (registerIntegration fetchFn st config now
          responseTime).1.integrations config.id = some c ∧
      c.name = config.name ∧ c.category = config.category ∧
      c.provider = config.provider ∧ c.credentials = config.credentials ∧
      c.settings = config.settings ∧ c.endpoints = config.endpoints ∧
      c.createdAt = now) ∧
    getKey (registerIntegration fetchFn st config now
        responseTime).1.rateLimiters config.id = some ((canMakeRequest rlOld now).2) ∧
    ((canMakeRequest rlOld now).2).limits = rlOld.limits ∧
    (∀ (fetch2 : Transport α) (method endpoint : String) (data2 : Option α)
        (headers : List (String × String)) (now2 rt2 : Int),
      (canMakeRequest ((canMakeRequest rlOld now).2) now2).1 = false →
      (makeApiCall fetch2 (registerIntegration fetchFn st config now responseTime).1
          config.id method endpoint data2 headers now2 rt2).2
        = .error "Rate limit exceeded") := by
  have hc1 : getKey (setIntegrations st (setKey st.integrations config.id
      (freshConfig config now))).integrations config.id = some (freshConfig config now) := by
    simp [setIntegrations, getKey_setKey_self]
  have hr1 : getKey (setIntegrations st (setKey st.integrations config.id
      (freshConfig config now))).rateLimiters config.id = some rlOld := hrl
  obtain ⟨stt, b, hres, hint, hlims⟩ := testIntegration_shape_limited fetchFn
    (setIntegrations st (setKey st.integrations config.id (freshConfig config now)))
    config.id now responseTime (freshConfig config now) rlOld hc1 hr1
  have hreg := registerIntegration_eval_nolimits fetchFn st config now responseTime
    hnew b hres
  rw [hreg]
  have hgetint : getKey (testIntegration fetchFn
      (setIntegrations st (setKey st.integrations config.id (freshConfig config now)))
      config.id now responseTime).1.integrations config.id
      = some (applyUpdate (freshConfig config now) (statusUpdate stt) now) := by
    rw [hint]
    simp [setIntegrations, getKey_setKey_self]
  have hgetrl : getKey (testIntegration fetchFn
      (setIntegrations st (setKey st.integrations config.id (freshConfig config now)))
      config.id now responseTime).1.rateLimiters config.id
      = some ((canMakeRequest rlOld now).2) := by
    rw [hlims]
    simp [setIntegrations, getKey_setKey_self]
  refine ⟨⟨applyUpdate (freshConfig config now) (statusUpdate stt) now, hgetint,
      ?_, ?_, ?_, ?_, ?_, ?_, ?_⟩, hgetrl, canMakeRequest_limits rlOld now, ?_⟩
  · simp [applyUpdate, statusUpdate, freshConfig]
  · simp [applyUpdate, statusUpdate, freshConfig]
  · simp [applyUpdate, statusUpdate, freshConfig]
  · simp [applyUpdate, statusUpdate, freshConfig]
  · simp [applyUpdate, statusUpdate, freshConfig]
  · simp [applyUpdate, statusUpdate, freshConfig]
  · simp [applyUpdate, statusUpdate, freshConfig]
  · intro fetch2 method endpoint data2 headers now2 rt2 hreject
    have hstep : canMakeRequest ((canMakeRequest rlOld now).2) now2
        = (false, (canMakeRequest ((canMakeRequest rlOld now).2) now2).2) := by
      rw [← hreject]
    have hsome : (getKey (testIntegration fetchFn
        (setIntegrations st (setKey st.integrations config.id (freshConfig config now)))
        config.id now responseTime).1.integrations config.id).isSome = true := by
      rw [hgetint]; rfl
    rw [makeApiCall_eval_ratelimited fetch2 _ config.id method endpoint data2 headers
      now2 rt2 ((canMakeRequest rlOld now).2)
      ((canMakeRequest ((canMakeRequest rlOld now).2) now2).2) hsome hgetrl hstep]

/-- Concrete instantiation of `stale_limiter_on_reregistration`:
re-registering "x" (whose new config has no `rateLimits`) over
`limitedStateX`, where a zero-limit limiter is bound. -/
theorem stale_limiter_on_reregistration_witness :
    (∃ c, getKey (registerIntegration fetch500 limitedStateX cfgX 5
          1).1.integrations "x" = some c ∧
      c.name = cfgX.name ∧ c.category = cfgX.category ∧
      c.provider = cfgX.provider ∧ c.credentials = cfgX.credentials ∧
      c.settings = cfgX.settings ∧ c.endpoints = cfgX.endpoints ∧
      c.createdAt = 5) ∧
    getKey (registerIntegration fetch500 limitedStateX cfgX 5
        1).1.rateLimiters "x" = some ((canMakeRequest ⟨[], ⟨0, 0, 0⟩⟩ 5).2) ∧
    ((canMakeRequest ⟨[], ⟨0, 0, 0⟩⟩ 5).2).limits = RateLimits.mk 0 0 0 ∧
    (∀ (fetch2 : Transport Nat) (method endpoint : String) (data2 : Option Nat)
        (headers : List (String × String)) (now2 rt2 : Int),
      (canMakeRequest ((canMakeRequest ⟨[], ⟨0, 0, 0⟩⟩ 5).2) now2).1 = false →
      (makeApiCall fetch2 (registerIntegration fetch500 limitedStateX cfgX 5 1).1 "x"
          method endpoint data2 headers now2 rt2).2
        = .error "Rate limit exceeded") :=
  stale_limiter_on_reregistration fetch500 limitedStateX cfgX 5 1
    ⟨[], ⟨0, 0, 0⟩⟩ rfl rfl

/-- Concrete instantiation of `metrics_consistency` on `metricsStateX`. -/
theorem metrics_consistency_witness :
    (getMetrics metricsStateX "x" .hour 10).totalRequests
        = (metricsStateX.events.filter (fun e =>
            e.integrationId == "x"
              && decide (metricsCutoff .hour 10 < e.timestamp)
              && e.type == EventType.api_call)).length ∧
    (getMetrics metricsStateX "x" .hour 10).successfulRequests
        + (getMetrics metricsStateX "x" .hour 10).failedRequests
      = (getMetrics metricsStateX "x" .hour 10).totalRequests ∧
    (0 < (getMetrics metricsStateX "x" .hour 10).totalRequests →
      (getMetrics metricsStateX "x" .hour 10).errorRate
        = (((getMetrics metricsStateX "x" .hour 10).failedRequests : ℚ)
            / ((getMetrics metricsStateX "x" .hour 10).totalRequests : ℚ)) * 100) ∧
    ((getMetrics metricsStateX "x" .hour 10).totalRequests = 0 →
      (getMetrics metricsStateX "x" .hour 10).errorRate = 0) :=
  metrics_consistency metricsStateX "x" Timeframe.hour 10
